import Mathlib

/-!
Shallow embedding of the kakeibo-invest core: the quote-cache gateway
(src/backend/server.js, GET /api/stock-cached/:symbol), the virtual
investment simulator (VirtualInvestmentSimulator.js, calculateSimulation)
and the ledger-reconciled simulation (InvestmentSimulation.js).

Monetary amounts and prices are modelled over the rationals; JavaScript
float division and multiplication, including NaN and signed infinities
produced by division by zero, are modelled by the JVal type below.
Float rounding error is abstracted away (values are exact rationals).
-/

namespace Kakeibo

/-- JavaScript numeric value: a finite number, NaN, or a signed infinity.
Negative zero is identified with zero. -/
inductive JVal where
  | num (q : ℚ)
  | nan
  | posInf
  | negInf
deriving DecidableEq

namespace JVal

/-- JS addition. -/
def add : JVal → JVal → JVal
  | nan, _ => nan
  | _, nan => nan
  | num a, num b => num (a + b)
  | num _, posInf => posInf
  | num _, negInf => negInf
  | posInf, num _ => posInf
  | negInf, num _ => negInf
  | posInf, posInf => posInf
  | negInf, negInf => negInf
  | posInf, negInf => nan
  | negInf, posInf => nan

/-- JS negation. -/
def neg : JVal → JVal
  | num a => num (-a)
  | nan => nan
  | posInf => negInf
  | negInf => posInf

/-- JS subtraction. -/
def sub (a b : JVal) : JVal := add a (neg b)

/-- JS multiplication. -/
def mul : JVal → JVal → JVal
  | nan, _ => nan
  | _, nan => nan
  | num a, num b => num (a * b)
  | num a, posInf => if a = 0 then nan else if 0 < a then posInf else negInf
  | num a, negInf => if a = 0 then nan else if 0 < a then negInf else posInf
  | posInf, num b => if b = 0 then nan else if 0 < b then posInf else negInf
  | negInf, num b => if b = 0 then nan else if 0 < b then negInf else posInf
  | posInf, posInf => posInf
  | posInf, negInf => negInf
  | negInf, posInf => negInf
  | negInf, negInf => posInf

/-- JS division: x / 0 is NaN for x = 0 and a signed infinity otherwise. -/
def div : JVal → JVal → JVal
  | nan, _ => nan
  | _, nan => nan
  | num a, num b =>
      if b = 0 then (if a = 0 then nan else if 0 < a then posInf else negInf)
      else num (a / b)
  | num _, posInf => num 0
  | num _, negInf => num 0
  | posInf, num b => if 0 ≤ b then posInf else negInf
  | negInf, num b => if 0 ≤ b then negInf else posInf
  | posInf, posInf => nan
  | posInf, negInf => nan
  | negInf, posInf => nan
  | negInf, negInf => nan

/-- The JS comparison x > 0 (false on NaN). -/
def gtZero : JVal → Bool
  | num q => decide (0 < q)
  | posInf => true
  | _ => false

end JVal

/-- A calendar date as written in the quote provider's date strings
(year, 1-based month, day); JS Date comparison is chronological, i.e.
lexicographic on these components. -/
structure SimDate where
  year : Int
  month : Nat
  day : Nat
deriving DecidableEq

/-- Chronological order on dates (models comparison of JS Date values). -/
def dateLe (a b : SimDate) : Bool :=
  decide (a.year < b.year) ||
    (decide (a.year = b.year) &&
      (decide (a.month < b.month) ||
        (decide (a.month = b.month) && decide (a.day ≤ b.day))))

/-- One point of the sorted monthly price series: date and close price
(the parsed value of the "4. close" field). -/
structure PricePoint where
  date : SimDate
  price : ℚ
deriving DecidableEq

/-- targetDate = new Date(currentDate.getFullYear() - yearsAgo,
currentDate.getMonth(), 1): same month as today, day 1, yearsAgo years back. -/
def targetDate (today : SimDate) (yearsAgo : Nat) : SimDate :=
  { year := today.year - yearsAgo, month := today.month, day := 1 }

/-- startPoint = sortedData.find(item => new Date(item.date) >= targetDate)
|| sortedData[0]. -/
def startPointD (sortedData : List PricePoint) (target : SimDate)
    (p0 : PricePoint) : PricePoint :=
  (sortedData.find? (fun p => dateLe target p.date)).getD p0

/-- relevantData = sortedData.filter(item =>
new Date(item.date) >= new Date(startPoint.date)). -/
def relevantDataOf (sortedData : List PricePoint) (sp : PricePoint) :
    List PricePoint :=
  sortedData.filter (fun p => dateLe sp.date p.date)

/-- Result of the lump-sum branch of calculateSimulation (the chart data and
the annualReturn field, which uses Math.pow over the reals, are outside the
embedding; no claim mentions them). -/
structure LumpResult where
  startDate : SimDate
  startPrice : ℚ
  currentPrice : ℚ
  shares : JVal
  investedAmount : ℚ
  currentValue : JVal
  profit : JVal
  profitPercent : JVal
deriving DecidableEq

/-- Lump-sum branch of calculateSimulation, VirtualInvestmentSimulator.js.
Takes the already-sorted price series (the component sorts ascending by date
before this point); returns none when the series is empty (the early return). -/
def simulateLumpSum (sortedData : List PricePoint) (investmentAmount : ℚ)
    (yearsAgo : Nat) (today : SimDate) : Option LumpResult :=
  match sortedData with
  | [] => none
  | p0 :: rest =>
    let all := p0 :: rest
    let sp := startPointD all (targetDate today yearsAgo) p0
    let cp := all.getLastD p0
    let shares := JVal.div (.num investmentAmount) (.num sp.price)
    let currentValue := JVal.mul shares (.num cp.price)
    let profit := JVal.sub currentValue (.num investmentAmount)
    let profitPercent :=
      JVal.mul (JVal.div profit (.num investmentAmount)) (.num 100)
    some { startDate := sp.date, startPrice := sp.price,
           currentPrice := cp.price, shares := shares,
           investedAmount := investmentAmount, currentValue := currentValue,
           profit := profit, profitPercent := profitPercent }

/-- One entry of investmentHistory in the monthly (dollar-cost-averaging)
branch: all totals are the values after this month's purchase, and
currentValue is totalShares times the latest close (currentPoint.price). -/
structure MonthlySnapshot where
  date : SimDate
  monthlyInvestment : JVal
  totalInvested : JVal
  shares : JVal
  currentValue : JVal
  profit : JVal
deriving DecidableEq

/-- The for-loop of the monthly branch: walks the step list carrying the
totalShares and totalInvested accumulators, returning the final accumulators
and the investmentHistory list. currentPrice is currentPoint.price. -/
def periodicLoop (currentPrice : ℚ) (monthlyAmount : JVal) :
    List PricePoint → JVal → JVal → JVal × JVal × List MonthlySnapshot
  | [], totalShares, totalInvested => (totalShares, totalInvested, [])
  | p :: rest, totalShares, totalInvested =>
    let shares := JVal.div monthlyAmount (.num p.price)
    let totalShares' := JVal.add totalShares shares
    let totalInvested' := JVal.add totalInvested monthlyAmount
    let currentValue := JVal.mul totalShares' (.num currentPrice)
    let snap : MonthlySnapshot :=
      { date := p.date, monthlyInvestment := monthlyAmount,
        totalInvested := totalInvested', shares := totalShares',
        currentValue := currentValue,
        profit := JVal.sub currentValue totalInvested' }
    let r := periodicLoop currentPrice monthlyAmount rest totalShares' totalInvested'
    (r.1, r.2.1, snap :: r.2.2)

/-- Result of the monthly branch of calculateSimulation. -/
structure PeriodicResult where
  startDate : SimDate
  monthlyAmount : JVal
  totalMonths : Nat
  shares : JVal
  investedAmount : JVal
  currentValue : JVal
  profit : JVal
  profitPercent : JVal
  investmentHistory : List MonthlySnapshot
deriving DecidableEq

/-- Monthly (dollar-cost-averaging) branch of calculateSimulation,
VirtualInvestmentSimulator.js. monthlyAmount = investmentAmount /
(yearsAgo * 12); the loop runs over relevantData for at most yearsAgo * 12
iterations. -/
def simulatePeriodic (sortedData : List PricePoint) (investmentAmount : ℚ)
    (yearsAgo : Nat) (today : SimDate) : Option PeriodicResult :=
  match sortedData with
  | [] => none
  | p0 :: rest =>
    let all := p0 :: rest
    let sp := startPointD all (targetDate today yearsAgo) p0
    let cp := all.getLastD p0
    let monthlyAmount :=
      JVal.div (.num investmentAmount) (.num ((yearsAgo * 12 : ℕ) : ℚ))
    let relevantData := relevantDataOf all sp
    let steps := relevantData.take (yearsAgo * 12)
    let r := periodicLoop cp.price monthlyAmount steps (.num 0) (.num 0)
    let totalShares := r.1
    let totalInvested := r.2.1
    let finalCurrentValue := JVal.mul totalShares (.num cp.price)
    let finalProfit := JVal.sub finalCurrentValue totalInvested
    let finalProfitPercent :=
      if totalInvested.gtZero then
        JVal.mul (JVal.div finalProfit totalInvested) (.num 100)
      else .num 0
    some { startDate := sp.date, monthlyAmount := monthlyAmount,
           totalMonths := min relevantData.length (yearsAgo * 12),
           shares := totalShares, investedAmount := totalInvested,
           currentValue := finalCurrentValue, profit := finalProfit,
           profitPercent := finalProfitPercent,
           investmentHistory := r.2.2 }

/-! ### Ledger-reconciled simulation, InvestmentSimulation.js -/

/-- One point of the price series as seen by InvestmentSimulation.js:
the date string "YYYY-MM-DD" and the parsed close price. -/
structure LPoint where
  date : String
  price : ℚ
deriving DecidableEq

/-- One entry of expenseData.monthlyData: month key "YYYY-MM" and the total
recorded investment amount for that month (a sum of positive-integer
expense amounts, hence a natural number). -/
structure MonthlyInvestment where
  month : String
  totalAmount : Nat
deriving DecidableEq

/-- investmentsByMonth[key] || 0: the reduce over monthlyData assigns
acc[m.month] = m.totalAmount, so a later entry for the same month
overwrites an earlier one; a missing key (and a stored 0) yields 0. -/
def investmentsByMonth (monthlyData : List MonthlyInvestment)
    (key : String) : Nat :=
  (((monthlyData.filter (fun m => m.month == key)).getLast?).map
    (fun m => m.totalAmount)).getD 0

/-- One entry of simulationData: totals after processing this series point. -/
structure LedgerSnapshot where
  date : String
  month : String
  stockPrice : ℚ
  monthlyInvestment : Nat
  totalInvested : Nat
  currentValue : ℚ
  profit : ℚ
  profitPercent : ℚ
  shares : ℚ
deriving DecidableEq

/-- The stockPrices.forEach loop of InvestmentSimulation.js: monthKey is the
first seven characters of the date ("YYYY-MM"); a positive recorded amount
buys amount / price shares, otherwise the totals carry forward; the
snapshot's currentValue uses this month's close price. -/
def ledgerLoop (monthlyData : List MonthlyInvestment) :
    List LPoint → Nat → ℚ → List LedgerSnapshot
  | [], _, _ => []
  | p :: rest, totalInvested, totalShares =>
    let monthKey := p.date.take 7
    let monthlyInvestment := investmentsByMonth monthlyData monthKey
    let totalShares' :=
      if 0 < monthlyInvestment then
        totalShares + (monthlyInvestment : ℚ) / p.price
      else totalShares
    let totalInvested' :=
      if 0 < monthlyInvestment then totalInvested + monthlyInvestment
      else totalInvested
    let currentValue := totalShares' * p.price
    let profit := currentValue - (totalInvested' : ℚ)
    let profitPercent :=
      if 0 < totalInvested' then profit / (totalInvested' : ℚ) * 100 else 0
    { date := p.date, month := monthKey, stockPrice := p.price,
      monthlyInvestment := monthlyInvestment,
      totalInvested := totalInvested', currentValue := currentValue,
      profit := profit, profitPercent := profitPercent,
      shares := totalShares' } :: ledgerLoop monthlyData rest totalInvested' totalShares'

/-- simulationData of InvestmentSimulation.js: the ledger walk over the
sorted price series starting from zero holdings. -/
def ledgerSimulation (monthlyData : List MonthlyInvestment)
    (stockPrices : List LPoint) : List LedgerSnapshot :=
  ledgerLoop monthlyData stockPrices 0 0

/-! ### Quote cache gateway, src/backend/server.js (GET /api/stock-cached/:symbol) -/

/-- The upstream Alpha Vantage JSON payload as the gateway inspects it:
the optional "Error Message" and "Note" fields, and the time-series body
(opaque to the gateway, which stores and returns the payload whole). -/
structure ApiData where
  errorMessage : Option String
  note : Option String
  series : List (String × ℚ)
deriving DecidableEq

/-- JS truthiness of an optional string field: present and non-empty. -/
def isTruthy : Option String → Bool
  | none => false
  | some s => !(s == "")

/-- One row of the stock_cache table. fetchedAt is a point on the time
axis, measured in whole hours (the freshness test in SQL compares
fetched_at against NOW() minus a 24-hour interval). -/
structure CacheRow where
  symbol : String
  data : ApiData
  fetchedAt : Int
deriving DecidableEq

/-- CACHE_EXPIRY_HOURS = 24. -/
def cacheExpiryHours : Int := 24

/-- The WHERE clause of the cache lookup: symbol matches and
fetched_at > NOW() - INTERVAL '24 hours'. -/
def freshRows (cache : List CacheRow) (symbol : String) (now : Int) :
    List CacheRow :=
  cache.filter
    (fun r => r.symbol == symbol && decide (now - cacheExpiryHours < r.fetchedAt))

/-- ORDER BY fetched_at DESC LIMIT 1: a row with maximal fetchedAt. -/
def newestRow : List CacheRow → Option CacheRow
  | [] => none
  | r :: rest =>
    match newestRow rest with
    | none => some r
    | some best => if best.fetchedAt ≤ r.fetchedAt then some r else some best

/-- INSERT ... ON CONFLICT (symbol) DO UPDATE: replace the row for this
symbol if one exists, append a new row otherwise. -/
def upsert (cache : List CacheRow) (symbol : String) (data : ApiData)
    (now : Int) : List CacheRow :=
  if cache.any (fun r => r.symbol == symbol) then
    cache.map (fun r =>
      if r.symbol == symbol then
        { symbol := symbol, data := data, fetchedAt := now }
      else r)
  else
    cache ++ [{ symbol := symbol, data := data, fetchedAt := now }]

/-- What the endpoint sends: a 200 JSON body with the data, the cached flag
and (on a cache hit) the fetchedAt timestamp, or a 500 JSON body carrying
the error message of the thrown Error. -/
inductive GatewayOutcome where
  | ok (data : ApiData) (cached : Bool) (fetchedAt : Option Int)
  | err (message : String)
deriving DecidableEq

/-- Outcome of one request: the response, the cache contents afterwards, and
whether the upstream provider was called. -/
structure GatewayResult where
  outcome : GatewayOutcome
  cache : List CacheRow
  calledUpstream : Bool
deriving DecidableEq

/-- apiData["Error Message"] || apiData["Note"] || "API limit reached":
the first truthy operand. -/
def errText (d : ApiData) : String :=
  if isTruthy d.errorMessage then d.errorMessage.getD ""
  else if isTruthy d.note then d.note.getD ""
  else "API limit reached"

/-- GET /api/stock-cached/:symbol. A fresh cache row is returned as is
(cached: true) without contacting upstream; otherwise the upstream payload
is fetched: a truthy "Error Message" or "Note" field makes the handler throw,
which the catch turns into a 500 response, while a clean payload is upserted
into the cache and returned (cached: false). The JSON stringify/parse
round-trip of the stored payload is modelled as the identity. -/
def getSeries (cache : List CacheRow) (symbol : String) (now : Int)
    (upstream : ApiData) : GatewayResult :=
  match newestRow (freshRows cache symbol now) with
  | some row =>
    { outcome := .ok row.data true (some row.fetchedAt), cache := cache,
      calledUpstream := false }
  | none =>
    if isTruthy upstream.errorMessage || isTruthy upstream.note then
      { outcome := .err (errText upstream), cache := cache,
        calledUpstream := true }
    else
      { outcome := .ok upstream false none,
        cache := upsert cache symbol upstream now, calledUpstream := true }

/-- At most one stock_cache row for a given symbol. -/
def atMostOne (cache : List CacheRow) (symbol : String) : Prop :=
  (cache.filter (fun r => r.symbol == symbol)).length ≤ 1

/-- The stock_cache invariant: at most one row per symbol (the table has a
unique key on symbol). -/
def atMostOnePerSymbol (cache : List CacheRow) : Prop :=
  ∀ symbol, atMostOne cache symbol

/-! ### Concrete inputs used by counterexamples and witnesses -/

/-- A cache row for SPY fetched at hour 0 (stale at hour 30). -/
def c1Stale : CacheRow := ⟨"SPY", ⟨none, none, [("2020-01-31", 100)]⟩, 0⟩

/-- An upstream payload whose Note field reports a rate limit. -/
def c1RateLimited : ApiData := ⟨none, some "rate limit", []⟩

/-- A clean upstream payload with one series point. -/
def c5Clean : ApiData := ⟨none, none, [("2024-01-31", 500)]⟩

/-- A rate-limited upstream payload used for the second call of C5. -/
def c5Limited : ApiData := ⟨none, some "rate limit", []⟩

/-- A clean upstream payload used for the C6 witness. -/
def c6Clean : ApiData := ⟨none, none, [("2024-02-29", 510)]⟩

/-- Two-point rising monthly series for the C2 counterexample. -/
def c2Data : List PricePoint := [⟨⟨2020, 1, 31⟩, 100⟩, ⟨⟨2020, 2, 29⟩, 200⟩]

/-- Single-point series for the C3 counterexample. -/
def c3Data : List PricePoint := [⟨⟨2020, 1, 31⟩, 100⟩]

/-- Single-point series for the C4 counterexample. -/
def c4Data : List PricePoint := [⟨⟨2024, 1, 31⟩, 100⟩]

/-- Two-point sorted series for the C7 and C8 witnesses. -/
def c7Data : List PricePoint :=
  [⟨⟨2024, 1, 31⟩, 100⟩, ⟨⟨2024, 2, 29⟩, 200⟩]

/-- The monthly-branch result on c2Data with budget 2400 over 1 year,
viewed from 2021-01-15 (monthlyAmount 200; every snapshot's valuation uses
the latest close 200). -/
def c2Result : PeriodicResult :=
  { startDate := ⟨2020, 1, 31⟩, monthlyAmount := .num 200, totalMonths := 2,
    shares := .num 3, investedAmount := .num 400, currentValue := .num 600,
    profit := .num 200, profitPercent := .num 50,
    investmentHistory :=
      [{ date := ⟨2020, 1, 31⟩, monthlyInvestment := .num 200,
         totalInvested := .num 200, shares := .num 2,
         currentValue := .num 400, profit := .num 200 },
       { date := ⟨2020, 2, 29⟩, monthlyInvestment := .num 200,
         totalInvested := .num 400, shares := .num 3,
         currentValue := .num 600, profit := .num 200 }] }

/-- The lump-sum result on c3Data with amount 0: profit and value are zero
but profitPercent is NaN (0 / 0). -/
def c3Result : LumpResult :=
  { startDate := ⟨2020, 1, 31⟩, startPrice := 100, currentPrice := 100,
    shares := .num 0, investedAmount := 0, currentValue := .num 0,
    profit := .num 0, profitPercent := .nan }

/-- The monthly-branch result on the single-point c4Data with budget 1200
over 1 year: only one installment of 100 is invested. -/
def c4Periodic : PeriodicResult :=
  { startDate := ⟨2024, 1, 31⟩, monthlyAmount := .num 100, totalMonths := 1,
    shares := .num 1, investedAmount := .num 100, currentValue := .num 100,
    profit := .num 0, profitPercent := .num 0,
    investmentHistory :=
      [{ date := ⟨2024, 1, 31⟩, monthlyInvestment := .num 100,
         totalInvested := .num 100, shares := .num 1,
         currentValue := .num 100, profit := .num 0 }] }

/-- The lump-sum result on c4Data with the single installment 100. -/
def c4Lump : LumpResult :=
  { startDate := ⟨2024, 1, 31⟩, startPrice := 100, currentPrice := 100,
    shares := .num 1, investedAmount := 100, currentValue := .num 100,
    profit := .num 0, profitPercent := .num 0 }

/-- The monthly-branch result on c7Data with budget 1200 over 1 year. -/
def c7Result : PeriodicResult :=
  { startDate := ⟨2024, 1, 31⟩, monthlyAmount := .num 100, totalMonths := 2,
    shares := .num (3 / 2), investedAmount := .num 200,
    currentValue := .num 300, profit := .num 100, profitPercent := .num 50,
    investmentHistory :=
      [{ date := ⟨2024, 1, 31⟩, monthlyInvestment := .num 100,
         totalInvested := .num 100, shares := .num 1,
         currentValue := .num 200, profit := .num 100 },
       { date := ⟨2024, 2, 29⟩, monthlyInvestment := .num 100,
         totalInvested := .num 200, shares := .num (3 / 2),
         currentValue := .num 300, profit := .num 100 }] }

/-- The 2021-02 snapshot of the ledger walk that starts the month holding
10 shares bought for 1000: no purchase, same shares, new valuation. -/
def c9Snap : LedgerSnapshot :=
  { date := "2021-02-26", month := "2021-02", stockPrice := 150,
    monthlyInvestment := 0, totalInvested := 1000, currentValue := 1500,
    profit := 500, profitPercent := 50, shares := 10 }

/-- The final snapshot of the ledger walk of c10Ledger over c9Prices: the
unmatched 2025-12 amount is never invested. -/
def c10Last : LedgerSnapshot :=
  { date := "2021-03-31", month := "2021-03", stockPrice := 200,
    monthlyInvestment := 0, totalInvested := 1000, currentValue := 2000,
    profit := 1000, profitPercent := 100, shares := 10 }

/-- Ledger of the C9 scenario: 1000 in 2021-01, nothing in 2021-02,
2000 in 2021-03. -/
def c9Ledger : List MonthlyInvestment := [⟨"2021-01", 1000⟩, ⟨"2021-03", 2000⟩]

/-- Rising price series for the C9 and C10 witnesses. -/
def c9Prices : List LPoint :=
  [⟨"2021-01-29", 100⟩, ⟨"2021-02-26", 150⟩, ⟨"2021-03-31", 200⟩]

/-- Ledger for the C10 witness: one month matches the series, one does not. -/
def c10Ledger : List MonthlyInvestment := [⟨"2021-01", 1000⟩, ⟨"2025-12", 7000⟩]

/-! ### Helper lemmas about the cache store -/

lemma filter_map_comm (g : CacheRow → CacheRow) (p : CacheRow → Bool) :
    ∀ l : List CacheRow, (l.map g).filter p = (l.filter (fun r => p (g r))).map g
  | [] => rfl
  | r :: rest => by
    simp only [List.map_cons, List.filter_cons]
    cases h : p (g r) <;> simp [h, filter_map_comm g p rest]

lemma upsert_filter_self (cache : List CacheRow) (s : String) (d : ApiData)
    (t : Int) (h : atMostOne cache s) :
    (upsert cache s d t).filter (fun r => r.symbol == s) = [⟨s, d, t⟩] := by
  unfold atMostOne at h
  unfold upsert
  by_cases hany : cache.any (fun r => r.symbol == s) = true
  · rw [if_pos hany]
    rw [filter_map_comm]
    have hcong : cache.filter
        (fun r => (if r.symbol == s then (⟨s, d, t⟩ : CacheRow) else r).symbol == s) =
        cache.filter (fun r => r.symbol == s) := by
      apply List.filter_congr
      intro r _
      by_cases hr : (r.symbol == s) = true <;> simp [hr]
    rw [hcong]
    obtain ⟨r, hrmem, hrs⟩ := List.any_eq_true.mp hany
    have hmemf : r ∈ cache.filter (fun r => r.symbol == s) :=
      List.mem_filter.2 ⟨hrmem, hrs⟩
    have hlen : (cache.filter (fun r => r.symbol == s)).length = 1 := by
      have h1 : 0 < (cache.filter (fun r => r.symbol == s)).length :=
        List.length_pos.mpr (List.ne_nil_of_mem hmemf)
      omega
    obtain ⟨x, hx⟩ := List.length_eq_one.mp hlen
    have hxs : (x.symbol == s) = true := by
      have hxm : x ∈ cache.filter (fun r => r.symbol == s) := by
        rw [hx]; exact List.mem_singleton_self x
      exact (List.mem_filter.1 hxm).2
    rw [hx]
    have hxeq : x.symbol = s := by simpa using hxs
    simp [hxeq]
  · rw [if_neg hany]
    rw [List.filter_append]
    have hnone : cache.filter (fun r => r.symbol == s) = [] := by
      rw [List.filter_eq_nil_iff]
      intro r hr
      have hall := List.any_eq_true.not.mp hany
      push_neg at hall
      exact fun hc => hall r hr hc
    simp [hnone]

lemma upsert_filter_other (cache : List CacheRow) (s : String) (d : ApiData)
    (t : Int) (s' : String) (hne : s' ≠ s) :
    (upsert cache s d t).filter (fun r => r.symbol == s') =
      cache.filter (fun r => r.symbol == s') := by
  unfold upsert
  by_cases hany : cache.any (fun r => r.symbol == s) = true
  · rw [if_pos hany]
    rw [filter_map_comm]
    have hcong : cache.filter
        (fun r => (if r.symbol == s then (⟨s, d, t⟩ : CacheRow) else r).symbol == s') =
        cache.filter (fun r => r.symbol == s') := by
      apply List.filter_congr
      intro r _
      by_cases hr : (r.symbol == s) = true
      · have h1 : (s == s') = false := by
          simp only [beq_eq_false_iff_ne]
          exact fun hss => hne hss.symm
        have h2 : (r.symbol == s') = false := by
          simp only [beq_eq_false_iff_ne]
          have : r.symbol = s := by simpa using hr
          rw [this]
          exact fun hss => hne hss.symm
        simp [hr, h1, h2]
      · simp [hr]
    rw [hcong]
    have hid : ∀ r ∈ cache.filter (fun r => r.symbol == s'),
        (if r.symbol == s then (⟨s, d, t⟩ : CacheRow) else r) = r := by
      intro r hr
      have hrs' : (r.symbol == s') = true := (List.mem_filter.1 hr).2
      have : (r.symbol == s) = false := by
        simp only [beq_eq_false_iff_ne]
        have : r.symbol = s' := by simpa using hrs'
        rw [this]; exact hne
      simp [this]
    calc (cache.filter (fun r => r.symbol == s')).map
          (fun r => if r.symbol == s then (⟨s, d, t⟩ : CacheRow) else r)
        = (cache.filter (fun r => r.symbol == s')).map id := List.map_congr_left hid
      _ = cache.filter (fun r => r.symbol == s') := List.map_id _
  · rw [if_neg hany]
    rw [List.filter_append]
    have hnew : ((⟨s, d, t⟩ : CacheRow).symbol == s') = false := by
      simp only [beq_eq_false_iff_ne]
      exact fun hss => hne hss.symm
    simp [hnew]

lemma upsert_atMostOne (cache : List CacheRow) (s : String) (d : ApiData)
    (t : Int) (h : atMostOnePerSymbol cache) :
    atMostOnePerSymbol (upsert cache s d t) := by
  intro s'
  by_cases hs : s' = s
  · subst hs
    unfold atMostOne
    rw [upsert_filter_self cache s' d t (h s')]
    simp
  · unfold atMostOne
    rw [upsert_filter_other cache s d t s' hs]
    exact h s'

/-! ### Claim C1 -/

/-- Claim C1 counterexample: at hour 30 the only cache row for SPY is 30
hours old (stale), the upstream payload reports a rate limit in its Note
field, and the handler responds with a 500 error carrying that message —
it neither returns the stale entry tagged stale nor synthesizes a series,
so an error is propagated to the caller. -/
theorem c1_counterexample :
    newestRow (freshRows [c1Stale] "SPY" 30) = none ∧
    isTruthy c1RateLimited.note = true ∧
    getSeries [c1Stale] "SPY" 30 c1RateLimited =
      { outcome := .err "rate limit", cache := [c1Stale],
        calledUpstream := true } :=
  ⟨rfl, rfl, rfl⟩

/-- Claim C1 (amended): when no fresh cache row exists for the symbol and
the upstream payload carries a truthy Error Message or Note field, the
handler throws and the request ends in a 500 response carrying that
message; the cache is unchanged, and neither stale nor synthetic data is
served. -/
theorem c1_error_payload_returns_500 (cache : List CacheRow) (symbol : String)
    (now : Int) (upstream : ApiData)
    (hmiss : newestRow (freshRows cache symbol now) = none)
    (herr : (isTruthy upstream.errorMessage || isTruthy upstream.note) = true) :
    getSeries cache symbol now upstream =
      { outcome := .err (errText upstream), cache := cache,
        calledUpstream := true } := by
  simp only [getSeries, hmiss]
  rw [if_pos herr]

/-- Witness for the amended C1 theorem at the concrete rate-limited input. -/
theorem c1_error_payload_returns_500_witness :
    (newestRow (freshRows [c1Stale] "SPY" 30) = none ∧
      (isTruthy c1RateLimited.errorMessage || isTruthy c1RateLimited.note) = true) ∧
    getSeries [c1Stale] "SPY" 30 c1RateLimited =
      { outcome := .err (errText c1RateLimited), cache := [c1Stale],
        calledUpstream := true } :=
  ⟨⟨rfl, rfl⟩,
    c1_error_payload_returns_500 [c1Stale] "SPY" 30 c1RateLimited rfl rfl⟩

/-! ### Claim C5 -/

/-- Claim C5: after a cache miss with a clean upstream payload, the payload
is stored; a second request for the same symbol within the 24-hour TTL
returns the identical payload with cached: true and does not contact the
upstream provider (the second call's result does not depend on the second
upstream payload at all). -/
theorem c5_second_call_within_ttl (cache : List CacheRow) (symbol : String)
    (t0 t1 : Int) (upstream upstream2 : ApiData)
    (hinv : atMostOne cache symbol)
    (hmiss : newestRow (freshRows cache symbol t0) = none)
    (hclean : (isTruthy upstream.errorMessage || isTruthy upstream.note) = false)
    (hfresh : t1 - cacheExpiryHours < t0) :
    (getSeries cache symbol t0 upstream).outcome = .ok upstream false none ∧
    getSeries (getSeries cache symbol t0 upstream).cache symbol t1 upstream2 =
      { outcome := .ok upstream true (some t0),
        cache := (getSeries cache symbol t0 upstream).cache,
        calledUpstream := false } := by
  have h1 : getSeries cache symbol t0 upstream =
      { outcome := .ok upstream false none,
        cache := upsert cache symbol upstream t0, calledUpstream := true } := by
    simp only [getSeries, hmiss]
    rw [if_neg (by simp [hclean])]
  rw [h1]
  refine ⟨rfl, ?_⟩
  have hrows : freshRows (upsert cache symbol upstream t0) symbol t1 =
      [⟨symbol, upstream, t0⟩] := by
    unfold freshRows
    have hsplit : (upsert cache symbol upstream t0).filter
        (fun r => r.symbol == symbol && decide (t1 - cacheExpiryHours < r.fetchedAt)) =
        ((upsert cache symbol upstream t0).filter
          (fun r => r.symbol == symbol)).filter
            (fun r => decide (t1 - cacheExpiryHours < r.fetchedAt)) := by
      rw [List.filter_filter]
      apply List.filter_congr
      intro r _
      rw [Bool.and_comm]
    rw [hsplit, upsert_filter_self cache symbol upstream t0 hinv]
    simp [hfresh]
  simp only [getSeries, hrows, newestRow]

/-- Witness for C5 at a concrete empty cache and clean payload. -/
theorem c5_second_call_within_ttl_witness :
    (atMostOne ([] : List CacheRow) "SPY" ∧
      newestRow (freshRows [] "SPY" 0) = none ∧
      (isTruthy c5Clean.errorMessage || isTruthy c5Clean.note) = false ∧
      (10 : Int) - cacheExpiryHours < 0) ∧
    ((getSeries [] "SPY" 0 c5Clean).outcome = .ok c5Clean false none ∧
      getSeries (getSeries [] "SPY" 0 c5Clean).cache "SPY" 10 c5Limited =
        { outcome := .ok c5Clean true (some 0),
          cache := (getSeries [] "SPY" 0 c5Clean).cache,
          calledUpstream := false }) :=
  ⟨⟨by unfold atMostOne; simp, rfl, rfl, by decide⟩,
    c5_second_call_within_ttl [] "SPY" 0 10 c5Clean c5Limited
      (by unfold atMostOne; simp) rfl rfl (by decide)⟩

/-! ### Claim C6 -/

/-- Claim C6: every execution of the cached-stock handler preserves the
invariant that the cache holds at most one row per symbol — a successful
fetch upserts keyed by symbol (ON CONFLICT DO UPDATE), overwriting any
existing row rather than adding a second one. -/
theorem c6_at_most_one_row_per_symbol (cache : List CacheRow)
    (symbol : String) (now : Int) (upstream : ApiData)
    (h : atMostOnePerSymbol cache) :
    atMostOnePerSymbol (getSeries cache symbol now upstream).cache := by
  unfold getSeries
  cases hm : newestRow (freshRows cache symbol now) with
  | some row => exact h
  | none =>
    by_cases herr : (isTruthy upstream.errorMessage || isTruthy upstream.note) = true
    · rw [if_pos herr]
      exact h
    · rw [if_neg herr]
      exact upsert_atMostOne cache symbol upstream now h

/-- Witness for C6: starting from the empty cache (which trivially satisfies
the invariant), a fetch-and-store call preserves it. -/
theorem c6_at_most_one_row_per_symbol_witness :
    atMostOnePerSymbol ([] : List CacheRow) ∧
    atMostOnePerSymbol (getSeries [] "SPY" 0 c6Clean).cache := by
  have h : atMostOnePerSymbol ([] : List CacheRow) := by
    intro s
    unfold atMostOne
    simp
  exact ⟨h, c6_at_most_one_row_per_symbol [] "SPY" 0 c6Clean h⟩

/-! ### Helper lemmas about the simulator -/

lemma jval_zero_add (x : JVal) : JVal.add (.num 0) x = x := by
  cases x <;> simp [JVal.add]

lemma dateLe_refl (a : SimDate) : dateLe a a = true := by
  simp [dateLe]

lemma startPointD_mem (l : List PricePoint) (target : SimDate)
    (p0 : PricePoint) (h : p0 ∈ l) : startPointD l target p0 ∈ l := by
  unfold startPointD
  cases hf : l.find? (fun p => dateLe target p.date) with
  | none => simpa using h
  | some x => simpa using List.mem_of_find?_eq_some hf

lemma periodicLoop_snapshot (cp : ℚ) (m : JVal) :
    ∀ (steps : List PricePoint) (ts ti : JVal) (snap : MonthlySnapshot),
      snap ∈ (periodicLoop cp m steps ts ti).2.2 →
      snap.currentValue = JVal.mul snap.shares (JVal.num cp) ∧
      snap.profit = JVal.sub snap.currentValue snap.totalInvested
  | [], ts, ti, snap => by simp [periodicLoop]
  | p :: rest, ts, ti, snap => by
    intro hmem
    simp only [periodicLoop, List.mem_cons] at hmem
    rcases hmem with h | h
    · subst h
      exact ⟨rfl, rfl⟩
    · exact periodicLoop_snapshot cp m rest _ _ snap h

/-! ### Claim C2 -/

/-- Claim C2 counterexample: on the rising series c2Data the first snapshot
holds 2 shares bought at close 100, yet records valuation 400 — the code
multiplies by the latest close 200, not by the close at that step, so the
recorded valuation is not totalShares times priceAtStep (which would be
200). -/
theorem c2_counterexample :
    ((simulatePeriodic c2Data 2400 1 ⟨2021, 1, 15⟩).bind
      (fun r => r.investmentHistory.head?)).map
        (fun s => (s.shares, s.currentValue)) =
      some (JVal.num 2, JVal.num 400) ∧
    JVal.mul (JVal.num 2) (JVal.num 100) ≠ JVal.num 400 := by
  constructor
  · norm_num [c2Data, simulatePeriodic, startPointD, targetDate, dateLe,
      relevantDataOf, periodicLoop, List.find?, List.getLastD,
      JVal.div, JVal.mul, JVal.sub, JVal.add, JVal.neg]
  · norm_num [JVal.mul]

/-- Claim C2 (amended): every per-step snapshot of the monthly branch
records valuationAtThatPoint equal to the accumulated totalShares times the
close price of the latest series point (currentPoint.price), and
profitAtThatPoint equal to that valuation minus the totalInvested
accumulated so far. -/
theorem c2_snapshot_uses_latest_close (p0 : PricePoint)
    (rest : List PricePoint) (investmentAmount : ℚ) (yearsAgo : Nat)
    (today : SimDate) (r : PeriodicResult)
    (hr : simulatePeriodic (p0 :: rest) investmentAmount yearsAgo today = some r) :
    ∀ snap ∈ r.investmentHistory,
      snap.currentValue =
        JVal.mul snap.shares (JVal.num ((p0 :: rest).getLastD p0).price) ∧
      snap.profit = JVal.sub snap.currentValue snap.totalInvested := by
  simp only [simulatePeriodic] at hr
  injection hr with hr
  subst hr
  intro snap hsnap
  exact periodicLoop_snapshot _ _ _ _ _ snap hsnap

/-- Witness for the amended C2 theorem: the first snapshot of the c2Data
run satisfies the latest-close valuation equations. -/
theorem c2_snapshot_uses_latest_close_witness :
    (simulatePeriodic c2Data 2400 1 ⟨2021, 1, 15⟩ = some c2Result) ∧
    (JVal.num 400 = JVal.mul (JVal.num 2) (JVal.num (c2Data.getLastD ⟨⟨2020, 1, 31⟩, 100⟩).price) ∧
      JVal.num 200 = JVal.sub (JVal.num 400) (JVal.num 200)) := by
  have hr : simulatePeriodic c2Data 2400 1 ⟨2021, 1, 15⟩ = some c2Result := by
    norm_num [c2Data, c2Result, simulatePeriodic, startPointD, targetDate,
      dateLe, relevantDataOf, periodicLoop, List.find?, List.getLastD,
      JVal.div, JVal.mul, JVal.sub, JVal.add, JVal.neg, JVal.gtZero]
  have h := c2_snapshot_uses_latest_close ⟨⟨2020, 1, 31⟩, 100⟩
    [⟨⟨2020, 2, 29⟩, 200⟩] 2400 1 ⟨2021, 1, 15⟩ c2Result (by rw [← hr]; rfl)
    { date := ⟨2020, 1, 31⟩, monthlyInvestment := .num 200,
      totalInvested := .num 200, shares := .num 2,
      currentValue := .num 400, profit := .num 200 }
    (by simp [c2Result])
  exact ⟨hr, by simpa [c2Data, c2Result] using h⟩

/-! ### Claim C3 -/

/-- Claim C3 counterexample: with amount 0 the lump branch produces
currentValue 0 and profit 0, but profitPercent is NaN — the division
profit / amount is not guarded against amount = 0 in the lump branch, so
the claimed profitPercent = 0 with no NaN is false. -/
theorem c3_counterexample :
    (simulateLumpSum c3Data 0 5 ⟨2025, 1, 15⟩).map
      (fun r => (r.currentValue, r.profit, r.profitPercent)) =
      some (JVal.num 0, JVal.num 0, JVal.nan) ∧
    JVal.nan ≠ JVal.num 0 := by
  constructor
  · norm_num [c3Data, simulateLumpSum, startPointD, targetDate, dateLe,
      List.find?, List.getLastD, JVal.div, JVal.mul, JVal.sub, JVal.add,
      JVal.neg]
  · intro h
    exact JVal.noConfusion h

/-- Claim C3 (amended): for every non-empty series with nonzero prices, the
lump-sum branch with amount 0 returns currentValue 0 and profit 0, but
profitPercent is NaN (the 0 / 0 division is unguarded in the lump branch). -/
theorem c3_zero_amount_gives_nan_percent (p0 : PricePoint)
    (rest : List PricePoint) (yearsAgo : Nat) (today : SimDate)
    (r : LumpResult) (hp : ∀ p ∈ p0 :: rest, p.price ≠ 0)
    (hr : simulateLumpSum (p0 :: rest) 0 yearsAgo today = some r) :
    r.currentValue = JVal.num 0 ∧ r.profit = JVal.num 0 ∧
    r.profitPercent = JVal.nan := by
  simp only [simulateLumpSum] at hr
  injection hr with hr
  subst hr
  have hsp : startPointD (p0 :: rest) (targetDate today yearsAgo) p0 ∈ p0 :: rest :=
    startPointD_mem _ _ _ (List.mem_cons_self _ _)
  have hpr : (startPointD (p0 :: rest) (targetDate today yearsAgo) p0).price ≠ 0 :=
    hp _ hsp
  simp [JVal.div, JVal.mul, JVal.sub, JVal.add, JVal.neg, hpr]

/-- Witness for the amended C3 theorem on the concrete single-point series. -/
theorem c3_zero_amount_gives_nan_percent_witness :
    c3Result.currentValue = JVal.num 0 ∧ c3Result.profit = JVal.num 0 ∧
    c3Result.profitPercent = JVal.nan := by
  have hr : simulateLumpSum c3Data 0 5 ⟨2025, 1, 15⟩ = some c3Result := by
    norm_num [c3Data, c3Result, simulateLumpSum, startPointD, targetDate,
      dateLe, List.find?, List.getLastD, JVal.div, JVal.mul, JVal.sub,
      JVal.add, JVal.neg]
  exact c3_zero_amount_gives_nan_percent ⟨⟨2020, 1, 31⟩, 100⟩ [] 5
    ⟨2025, 1, 15⟩ c3Result (by intro p hp; simp at hp; subst hp; norm_num)
    (by rw [← hr]; rfl)

/-! ### Claim C4 -/

/-- Claim C4 counterexample: on the single-point series c4Data with total
budget 1200 over 1 year, the monthly branch buys 1 share for one
installment of 100, while the lump branch with the same total budget buys
12 shares for 1200 — the two do not behave identically as the claim
states. -/
theorem c4_counterexample :
    (simulatePeriodic c4Data 1200 1 ⟨2024, 6, 1⟩).map
      (fun r => (r.shares, r.investedAmount)) =
      some (JVal.num 1, JVal.num 100) ∧
    (simulateLumpSum c4Data 1200 1 ⟨2024, 6, 1⟩).map
      (fun r => (r.shares, r.investedAmount)) =
      some (JVal.num 12, (1200 : ℚ)) ∧
    JVal.num 1 ≠ JVal.num 12 := by
  refine ⟨?_, ?_, by norm_num⟩
  · norm_num [c4Data, simulatePeriodic, startPointD, targetDate, dateLe,
      relevantDataOf, periodicLoop, List.find?, List.getLastD,
      JVal.div, JVal.mul, JVal.sub, JVal.add, JVal.neg, JVal.gtZero]
  · norm_num [c4Data, simulateLumpSum, startPointD, targetDate, dateLe,
      List.find?, List.getLastD, JVal.div, JVal.mul, JVal.sub, JVal.add,
      JVal.neg]

/-- Claim C4 (amended): when exactly one monthly data point is available
from startDate onward, the monthly branch behaves identically to the
lump-sum branch called with a single installment monthlyAmount =
totalBudget / (yearsAgo * 12) — not with the whole totalBudget: the same
shares, amount invested, current value and profit. -/
theorem c4_single_point_matches_lump_installment (p0 : PricePoint)
    (rest : List PricePoint) (investmentAmount : ℚ) (yearsAgo : Nat)
    (today : SimDate) (rp : PeriodicResult) (rl : LumpResult)
    (hy : yearsAgo ≠ 0)
    (hone : (relevantDataOf (p0 :: rest)
      (startPointD (p0 :: rest) (targetDate today yearsAgo) p0)).length = 1)
    (hrp : simulatePeriodic (p0 :: rest) investmentAmount yearsAgo today = some rp)
    (hrl : simulateLumpSum (p0 :: rest)
      (investmentAmount / ((yearsAgo * 12 : ℕ) : ℚ)) yearsAgo today = some rl) :
    rp.shares = rl.shares ∧ rp.investedAmount = JVal.num rl.investedAmount ∧
    rp.currentValue = rl.currentValue ∧ rp.profit = rl.profit := by
  obtain ⟨e, he⟩ := List.length_eq_one.mp hone
  have hspmem : startPointD (p0 :: rest) (targetDate today yearsAgo) p0 ∈
      relevantDataOf (p0 :: rest)
        (startPointD (p0 :: rest) (targetDate today yearsAgo) p0) := by
    unfold relevantDataOf
    exact List.mem_filter.2
      ⟨startPointD_mem _ _ _ (List.mem_cons_self _ _), dateLe_refl _⟩
  rw [he] at hspmem
  have hspe : startPointD (p0 :: rest) (targetDate today yearsAgo) p0 = e := by
    simpa using hspmem
  obtain ⟨k, hk⟩ : ∃ k, yearsAgo * 12 = k + 1 := ⟨yearsAgo * 12 - 1, by omega⟩
  have hsteps : (relevantDataOf (p0 :: rest)
      (startPointD (p0 :: rest) (targetDate today yearsAgo) p0)).take
        (yearsAgo * 12) = [e] := by
    rw [he, hk]
    simp
  have hcast : ((yearsAgo * 12 : ℕ) : ℚ) ≠ 0 :=
    Nat.cast_ne_zero.mpr (by omega)
  have hm : JVal.div (.num investmentAmount) (.num ((yearsAgo * 12 : ℕ) : ℚ)) =
      .num (investmentAmount / ((yearsAgo * 12 : ℕ) : ℚ)) := by
    simp only [JVal.div]
    rw [if_neg hcast]
  simp only [simulatePeriodic] at hrp
  injection hrp with hrp
  subst hrp
  simp only [simulateLumpSum] at hrl
  injection hrl with hrl
  subst hrl
  simp only [hsteps, hm, periodicLoop, jval_zero_add]
  rw [hspe]
  refine ⟨?_, ?_, ?_, ?_⟩ <;> first | rfl | trivial

/-- Witness for the amended C4 theorem on the single-point series. -/
theorem c4_single_point_matches_lump_installment_witness :
    c4Periodic.shares = c4Lump.shares ∧
    c4Periodic.investedAmount = JVal.num c4Lump.investedAmount ∧
    c4Periodic.currentValue = c4Lump.currentValue ∧
    c4Periodic.profit = c4Lump.profit := by
  have hrp : simulatePeriodic c4Data 1200 1 ⟨2024, 6, 1⟩ = some c4Periodic := by
    norm_num [c4Data, c4Periodic, simulatePeriodic, startPointD, targetDate,
      dateLe, relevantDataOf, periodicLoop, List.find?, List.getLastD,
      JVal.div, JVal.mul, JVal.sub, JVal.add, JVal.neg, JVal.gtZero]
  have hrl : simulateLumpSum c4Data (1200 / ((1 * 12 : ℕ) : ℚ)) 1 ⟨2024, 6, 1⟩ =
      some c4Lump := by
    norm_num [c4Data, c4Lump, simulateLumpSum, startPointD, targetDate,
      dateLe, List.find?, List.getLastD, JVal.div, JVal.mul, JVal.sub,
      JVal.add, JVal.neg]
  exact c4_single_point_matches_lump_installment ⟨⟨2024, 1, 31⟩, 100⟩ []
    1200 1 ⟨2024, 6, 1⟩ c4Periodic c4Lump (by decide) (by decide)
    (by rw [← hrp]; rfl) (by rw [← hrl]; rfl)

/-! ### Claim C7 -/

lemma periodicLoop_history_length (cp : ℚ) (m : JVal) :
    ∀ (steps : List PricePoint) (ts ti : JVal),
      ((periodicLoop cp m steps ts ti).2.2).length = steps.length
  | [], _, _ => rfl
  | p :: rest, ts, ti => by
    simp only [periodicLoop, List.length_cons]
    rw [periodicLoop_history_length cp m rest _ _]

lemma periodicLoop_totals (cp q : ℚ) :
    ∀ (steps : List PricePoint), (∀ p ∈ steps, p.price ≠ 0) → ∀ (a b : ℚ),
      (periodicLoop cp (JVal.num q) steps (JVal.num a) (JVal.num b)).1 =
        JVal.num (a + (steps.map (fun p => q / p.price)).sum) ∧
      (periodicLoop cp (JVal.num q) steps (JVal.num a) (JVal.num b)).2.1 =
        JVal.num (b + q * steps.length)
  | [], h, a, b => by simp [periodicLoop]
  | p :: rest, h, a, b => by
    have hp : p.price ≠ 0 := h p (List.mem_cons_self p rest)
    have hdiv : JVal.div (JVal.num q) (JVal.num p.price) =
        JVal.num (q / p.price) := by
      simp only [JVal.div]
      rw [if_neg hp]
    have ih := periodicLoop_totals cp q rest
      (fun x hx => h x (List.mem_cons_of_mem p hx)) (a + q / p.price) (b + q)
    constructor
    · simp only [periodicLoop, hdiv, JVal.add]
      rw [ih.1]
      congr 1
      simp only [List.map_cons, List.sum_cons]
      ring
    · simp only [periodicLoop, hdiv, JVal.add]
      rw [ih.2]
      congr 1
      simp only [List.length_cons]
      push_cast
      ring

/-- Claim C7: the monthly branch invests monthlyAmount = totalBudget /
(yearsAgo * 12) at each of exactly min(n, yearsAgo * 12) available monthly
points (n the number of points from startDate onward), with totalShares the
sum of monthlyAmount over each step's close price and totalInvested equal
to monthlyAmount times the number of steps — no months are fabricated
beyond the available data. -/
theorem c7_one_purchase_per_available_month (p0 : PricePoint)
    (rest : List PricePoint) (investmentAmount : ℚ) (yearsAgo : Nat)
    (today : SimDate) (r : PeriodicResult)
    (hy : 0 < yearsAgo) (ha : 0 < investmentAmount)
    (hp : ∀ p ∈ p0 :: rest, p.price ≠ 0)
    (hr : simulatePeriodic (p0 :: rest) investmentAmount yearsAgo today = some r) :
    r.totalMonths = min (relevantDataOf (p0 :: rest)
      (startPointD (p0 :: rest) (targetDate today yearsAgo) p0)).length
      (yearsAgo * 12) ∧
    r.investmentHistory.length = r.totalMonths ∧
    r.investedAmount = JVal.num
      ((investmentAmount / ((yearsAgo * 12 : ℕ) : ℚ)) * r.totalMonths) ∧
    r.shares = JVal.num ((((relevantDataOf (p0 :: rest)
      (startPointD (p0 :: rest) (targetDate today yearsAgo) p0)).take
        (yearsAgo * 12)).map
          (fun p => (investmentAmount / ((yearsAgo * 12 : ℕ) : ℚ)) / p.price)).sum) := by
  have hcast : ((yearsAgo * 12 : ℕ) : ℚ) ≠ 0 :=
    Nat.cast_ne_zero.mpr (by omega)
  have hm : JVal.div (.num investmentAmount) (.num ((yearsAgo * 12 : ℕ) : ℚ)) =
      .num (investmentAmount / ((yearsAgo * 12 : ℕ) : ℚ)) := by
    simp only [JVal.div]
    rw [if_neg hcast]
  have hsteps_p : ∀ p ∈ (relevantDataOf (p0 :: rest)
      (startPointD (p0 :: rest) (targetDate today yearsAgo) p0)).take
        (yearsAgo * 12), p.price ≠ 0 := by
    intro p hp'
    have h1 : p ∈ relevantDataOf (p0 :: rest)
        (startPointD (p0 :: rest) (targetDate today yearsAgo) p0) :=
      List.take_subset _ _ hp'
    exact hp p (List.mem_of_mem_filter h1)
  simp only [simulatePeriodic] at hr
  injection hr with hr
  subst hr
  dsimp only
  rw [hm]
  have ht := periodicLoop_totals ((p0 :: rest).getLastD p0).price
    (investmentAmount / ((yearsAgo * 12 : ℕ) : ℚ)) _ hsteps_p 0 0
  refine ⟨rfl, ?_, ?_, ?_⟩
  · rw [periodicLoop_history_length, List.length_take, Nat.min_comm]
  · rw [ht.2]
    congr 1
    rw [List.length_take, Nat.min_comm]
    ring
  · rw [ht.1]
    congr 1
    ring

/-- Witness for C7 on the two-point series with budget 1200 over 1 year:
two purchases of 100 are made, buying 1 and then 1/2 share. -/
theorem c7_one_purchase_per_available_month_witness :
    c7Result.totalMonths = 2 ∧ c7Result.investmentHistory.length = 2 ∧
    c7Result.investedAmount = JVal.num 200 ∧
    c7Result.shares = JVal.num (3 / 2) := by
  have hr : simulatePeriodic c7Data 1200 1 ⟨2024, 6, 1⟩ = some c7Result := by
    norm_num [c7Data, c7Result, simulatePeriodic, startPointD, targetDate,
      dateLe, relevantDataOf, periodicLoop, List.find?, List.getLastD,
      JVal.div, JVal.mul, JVal.sub, JVal.add, JVal.neg, JVal.gtZero]
  have h := c7_one_purchase_per_available_month ⟨⟨2024, 1, 31⟩, 100⟩
    [⟨⟨2024, 2, 29⟩, 200⟩] 1200 1 ⟨2024, 6, 1⟩ c7Result (by decide)
    (by norm_num) (by intro p hp; fin_cases hp <;> norm_num)
    (by rw [← hr]; rfl)
  obtain ⟨h1, h2, h3, h4⟩ := h
  refine ⟨?_, ?_, ?_, ?_⟩
  · rw [h1]
    decide
  · rw [h2, h1]
    decide
  · rw [h3]
    norm_num [c7Result]
  · rw [h4]
    norm_num [relevantDataOf, startPointD, targetDate, dateLe, List.find?]

/-! ### Claim C8 -/

lemma find?_sorted_min (pred : PricePoint → Bool) :
    ∀ (l : List PricePoint),
      l.Pairwise (fun a b => dateLe a.date b.date = true) →
      ∀ x, l.find? pred = some x → ∀ q ∈ l, pred q = true →
        dateLe x.date q.date = true
  | [], _, x, hfind => by simp at hfind
  | p :: rest, hsorted, x, hfind => by
    intro q hq hpredq
    rw [List.pairwise_cons] at hsorted
    cases hp : pred p with
    | true =>
      rw [List.find?_cons_of_pos _ hp] at hfind
      injection hfind with hfind
      subst hfind
      rcases List.mem_cons.mp hq with h | h
      · subst h
        exact dateLe_refl _
      · exact hsorted.1 q h
    | false =>
      rw [List.find?_cons_of_neg _ (by simp [hp])] at hfind
      rcases List.mem_cons.mp hq with h | h
      · subst h
        rw [hp] at hpredq
        exact absurd hpredq (by simp)
      · exact find?_sorted_min pred rest hsorted.2 x hfind q h hpredq

/-- Claim C8: for a non-empty ascending series, startPoint is the first
series point whose date is on or after targetDate = (today minus yearsAgo
years, truncated to the month): it belongs to the series, its date is ≥
targetDate, and it is date-minimal among such points; when no point is on
or after targetDate, the earliest point (the head) is used instead of
failing. -/
theorem c8_start_date_clamps (p0 : PricePoint) (rest : List PricePoint)
    (today : SimDate) (yearsAgo : Nat)
    (hsorted : (p0 :: rest).Pairwise (fun a b => dateLe a.date b.date = true)) :
    startPointD (p0 :: rest) (targetDate today yearsAgo) p0 ∈ p0 :: rest ∧
    (∀ q ∈ p0 :: rest, dateLe (targetDate today yearsAgo) q.date = true →
      dateLe (targetDate today yearsAgo)
        (startPointD (p0 :: rest) (targetDate today yearsAgo) p0).date = true ∧
      dateLe (startPointD (p0 :: rest) (targetDate today yearsAgo) p0).date
        q.date = true) ∧
    ((∀ q ∈ p0 :: rest, dateLe (targetDate today yearsAgo) q.date = false) →
      startPointD (p0 :: rest) (targetDate today yearsAgo) p0 = p0 ∧
      ∀ q ∈ p0 :: rest, dateLe p0.date q.date = true) := by
  refine ⟨startPointD_mem _ _ _ (List.mem_cons_self _ _), ?_, ?_⟩
  · intro q hq hpredq
    unfold startPointD
    cases hfind : (p0 :: rest).find?
        (fun p => dateLe (targetDate today yearsAgo) p.date) with
    | none =>
      rw [List.find?_eq_none] at hfind
      exact absurd hpredq (by simpa using hfind q hq)
    | some x =>
      constructor
      · simpa using List.find?_some hfind
      · simpa using find?_sorted_min _ _ hsorted x hfind q hq hpredq
  · intro hall
    have hfind : (p0 :: rest).find?
        (fun p => dateLe (targetDate today yearsAgo) p.date) = none := by
      rw [List.find?_eq_none]
      intro a ha
      simp [hall a ha]
    constructor
    · unfold startPointD
      rw [hfind]
      rfl
    · intro q hq
      rcases List.mem_cons.mp hq with h | h
      · subst h
        exact dateLe_refl _
      · exact (List.pairwise_cons.mp hsorted).1 q h

/-- Witness for C8 on the sorted two-point series: the resolved startPoint
belongs to the series, is on or after the target date, and precedes the
other qualifying point. -/
theorem c8_start_date_clamps_witness :
    startPointD c7Data (targetDate ⟨2024, 6, 1⟩ 1) ⟨⟨2024, 1, 31⟩, 100⟩ ∈ c7Data ∧
    dateLe (targetDate ⟨2024, 6, 1⟩ 1)
      (startPointD c7Data (targetDate ⟨2024, 6, 1⟩ 1) ⟨⟨2024, 1, 31⟩, 100⟩).date = true ∧
    dateLe (startPointD c7Data (targetDate ⟨2024, 6, 1⟩ 1) ⟨⟨2024, 1, 31⟩, 100⟩).date
      (⟨⟨2024, 2, 29⟩, 200⟩ : PricePoint).date = true := by
  have h := c8_start_date_clamps ⟨⟨2024, 1, 31⟩, 100⟩ [⟨⟨2024, 2, 29⟩, 200⟩]
    ⟨2024, 6, 1⟩ 1 (by decide)
  have h2 := h.2.1 ⟨⟨2024, 2, 29⟩, 200⟩ (by decide) (by decide)
  exact ⟨h.1, h2.1, h2.2⟩

/-! ### Claim C9 -/

/-- Claim C9: in the ledger walk, a month whose recorded amount is zero (or
absent, which the lookup also maps to zero) makes no purchase — the share
count and totalInvested carry forward unchanged while the snapshot's
valuation is the unchanged share count times that month's close price — and
a month with a positive recorded amount adds amount / close shares to the
holdings and the amount to totalInvested. -/
theorem c9_zero_month_carries_forward (monthlyData : List MonthlyInvestment)
    (p : LPoint) (rest : List LPoint) (totalInvested : Nat) (totalShares : ℚ)
    (snap : LedgerSnapshot)
    (hsnap : (ledgerLoop monthlyData (p :: rest) totalInvested totalShares).head? =
      some snap) :
    (investmentsByMonth monthlyData (p.date.take 7) = 0 →
      snap.shares = totalShares ∧ snap.totalInvested = totalInvested ∧
      snap.currentValue = totalShares * p.price) ∧
    (0 < investmentsByMonth monthlyData (p.date.take 7) →
      snap.shares = totalShares +
        (investmentsByMonth monthlyData (p.date.take 7) : ℚ) / p.price ∧
      snap.totalInvested =
        totalInvested + investmentsByMonth monthlyData (p.date.take 7)) := by
  simp only [ledgerLoop, List.head?_cons] at hsnap
  injection hsnap with hsnap
  subst hsnap
  constructor
  · intro h0
    dsimp only
    rw [h0]
    norm_num
  · intro hpos
    dsimp only
    rw [if_pos hpos, if_pos hpos]
    exact ⟨rfl, rfl⟩

/-- Witness for C9: starting 2021-02 with 10 shares bought for 1000, the
zero-investment month keeps 10 shares and values them at the new close 150. -/
theorem c9_zero_month_carries_forward_witness :
    investmentsByMonth c9Ledger "2021-02" = 0 ∧
    c9Snap.shares = 10 ∧ c9Snap.totalInvested = 1000 ∧
    c9Snap.currentValue = 10 * 150 := by
  have hkey : ("2021-02-26" : String).take 7 = "2021-02" := by decide
  have hamt : investmentsByMonth c9Ledger "2021-02" = 0 := by rfl
  have hamt' : investmentsByMonth c9Ledger (("2021-02-26" : String).take 7) = 0 := by
    rw [hkey]
    exact hamt
  have hhead : (ledgerLoop c9Ledger [⟨"2021-02-26", 150⟩] 1000 10).head? =
      some c9Snap := by
    simp only [ledgerLoop, List.head?_cons, hkey, hamt]
    norm_num [c9Snap]
  have h := (c9_zero_month_carries_forward c9Ledger ⟨"2021-02-26", 150⟩ []
    1000 10 c9Snap hhead).1 hamt'
  exact ⟨hamt, h.1, h.2.1, h.2.2⟩

/-! ### Claim C10 -/

lemma getLast?_cons_ne_nil {α : Type} (a : α) (l : List α) (h : l ≠ []) :
    (a :: l).getLast? = l.getLast? := by
  cases l with
  | nil => exact absurd rfl h
  | cons b l' => rw [List.getLast?_cons_cons]

lemma ledgerLoop_ne_nil (md : List MonthlyInvestment) (p : LPoint)
    (rest : List LPoint) (inv : Nat) (sh : ℚ) :
    ledgerLoop md (p :: rest) inv sh ≠ [] := by
  simp [ledgerLoop]

/-- Unfolding equation of ledgerLoop on a cons cell. -/
lemma ledgerLoop_cons (md : List MonthlyInvestment) (p : LPoint)
    (rest : List LPoint) (inv : Nat) (sh : ℚ) :
    ledgerLoop md (p :: rest) inv sh =
      { date := p.date, month := p.date.take 7, stockPrice := p.price,
        monthlyInvestment := investmentsByMonth md (p.date.take 7),
        totalInvested :=
          if 0 < investmentsByMonth md (p.date.take 7) then
            inv + investmentsByMonth md (p.date.take 7)
          else inv,
        currentValue :=
          (if 0 < investmentsByMonth md (p.date.take 7) then
            sh + (investmentsByMonth md (p.date.take 7) : ℚ) / p.price
          else sh) * p.price,
        profit :=
          (if 0 < investmentsByMonth md (p.date.take 7) then
            sh + (investmentsByMonth md (p.date.take 7) : ℚ) / p.price
          else sh) * p.price -
          ((if 0 < investmentsByMonth md (p.date.take 7) then
            inv + investmentsByMonth md (p.date.take 7)
          else inv : ℕ) : ℚ),
        profitPercent :=
          if 0 < (if 0 < investmentsByMonth md (p.date.take 7) then
              inv + investmentsByMonth md (p.date.take 7)
            else inv) then
            ((if 0 < investmentsByMonth md (p.date.take 7) then
              sh + (investmentsByMonth md (p.date.take 7) : ℚ) / p.price
            else sh) * p.price -
            ((if 0 < investmentsByMonth md (p.date.take 7) then
              inv + investmentsByMonth md (p.date.take 7)
            else inv : ℕ) : ℚ)) /
            ((if 0 < investmentsByMonth md (p.date.take 7) then
              inv + investmentsByMonth md (p.date.take 7)
            else inv : ℕ) : ℚ) * 100
          else 0,
        shares :=
          if 0 < investmentsByMonth md (p.date.take 7) then
            sh + (investmentsByMonth md (p.date.take 7) : ℚ) / p.price
          else sh } ::
      ledgerLoop md rest
        (if 0 < investmentsByMonth md (p.date.take 7) then
          inv + investmentsByMonth md (p.date.take 7)
        else inv)
        (if 0 < investmentsByMonth md (p.date.take 7) then
          sh + (investmentsByMonth md (p.date.take 7) : ℚ) / p.price
        else sh) := rfl

lemma ledgerLoop_last_invested (md : List MonthlyInvestment) :
    ∀ (prices : List LPoint) (p : LPoint) (inv : Nat) (sh : ℚ),
      ((ledgerLoop md (p :: prices) inv sh).getLast?).map
        (fun s => s.totalInvested) =
      some (inv + ((p :: prices).map
        (fun x => investmentsByMonth md (x.date.take 7))).sum)
  | [], p, inv, sh => by
    simp only [ledgerLoop, List.getLast?_singleton, Option.map_some,
      List.map_cons, List.map_nil, List.sum_cons, List.sum_nil]
    by_cases hamt : 0 < investmentsByMonth md (p.date.take 7)
    · simp [hamt]
    · have h0 : investmentsByMonth md (p.date.take 7) = 0 := by omega
      simp [hamt, h0]
  | q :: rest', p, inv, sh => by
    rw [ledgerLoop_cons md p (q :: rest') inv sh,
      getLast?_cons_ne_nil _ _ (ledgerLoop_ne_nil md q rest' _ _),
      ledgerLoop_last_invested md rest' q _ _]
    by_cases hamt : 0 < investmentsByMonth md (p.date.take 7)
    · simp only [if_pos hamt, List.map_cons, List.sum_cons]
      congr 1
      omega
    · have h0 : investmentsByMonth md (p.date.take 7) = 0 := by omega
      rw [h0]
      simp [h0]

lemma sum_filter_or (p1 p2 : MonthlyInvestment → Bool) :
    ∀ (md : List MonthlyInvestment),
      (∀ m ∈ md, ¬(p1 m = true ∧ p2 m = true)) →
      ((md.filter (fun m => p1 m || p2 m)).map (fun m => m.totalAmount)).sum =
        ((md.filter p1).map (fun m => m.totalAmount)).sum +
        ((md.filter p2).map (fun m => m.totalAmount)).sum
  | [], _ => by simp
  | m :: rest, hdisj => by
    have ih := sum_filter_or p1 p2 rest
      (fun x hx => hdisj x (List.mem_cons_of_mem m hx))
    have hm := hdisj m (List.mem_cons_self m rest)
    cases h1 : p1 m <;> cases h2 : p2 m
    · simp [List.filter_cons, h1, h2, ih]
    · simp [List.filter_cons, h1, h2, ih]
      omega
    · simp [List.filter_cons, h1, h2, ih]
      omega
    · exact absurd ⟨h1, h2⟩ hm

lemma lookup_eq_sum_filter :
    ∀ (md : List MonthlyInvestment) (k : String),
      (md.map (fun m => m.month)).Nodup →
      investmentsByMonth md k =
        ((md.filter (fun m => m.month == k)).map (fun m => m.totalAmount)).sum
  | [], k, _ => by simp [investmentsByMonth]
  | m :: rest, k, hnd => by
    rw [List.map_cons, List.nodup_cons] at hnd
    cases hm : (m.month == k) with
    | false =>
      have hstep : investmentsByMonth (m :: rest) k = investmentsByMonth rest k := by
        unfold investmentsByMonth
        simp [List.filter_cons, hm]
      rw [hstep, lookup_eq_sum_filter rest k hnd.2,
        List.filter_cons_of_neg (by simp [hm])]
    | true =>
      have hk : m.month = k := by simpa using hm
      have hrest : rest.filter (fun x => x.month == k) = [] := by
        rw [List.filter_eq_nil_iff]
        intro x hx hxk
        have hxm : x.month = k := by simpa using hxk
        exact hnd.1 (by
          rw [hk, ← hxm]
          exact List.mem_map_of_mem _ hx)
      unfold investmentsByMonth
      rw [List.filter_cons_of_pos (by simp [hm]), hrest]
      simp

lemma sum_lookup_eq_filtered :
    ∀ (keys : List String) (md : List MonthlyInvestment),
      keys.Nodup → (md.map (fun m => m.month)).Nodup →
      (keys.map (fun k => investmentsByMonth md k)).sum =
        ((md.filter (fun m => keys.contains m.month)).map
          (fun m => m.totalAmount)).sum
  | [], md, _, _ => by simp
  | k :: ks, md, hknd, hmnd => by
    rw [List.nodup_cons] at hknd
    have ih := sum_lookup_eq_filtered ks md hknd.2 hmnd
    have hdisj : ∀ m ∈ md, ¬((m.month == k) = true ∧ ks.contains m.month = true) := by
      intro m _ hand
      have h1 : m.month = k := by simpa using hand.1
      have h2 : m.month ∈ ks := by simpa using hand.2
      rw [h1] at h2
      exact hknd.1 h2
    have hcong : md.filter (fun m => (k :: ks).contains m.month) =
        md.filter (fun m => (m.month == k) || ks.contains m.month) := by
      apply List.filter_congr
      intro m _
      rw [List.contains_cons]
    rw [List.map_cons, List.sum_cons, hcong,
      sum_filter_or (fun m => m.month == k) (fun m => ks.contains m.month) md hdisj,
      ih, lookup_eq_sum_filter md k hmnd]

/-- Claim C10: a ledger month whose YYYY-MM key matches no series date
contributes nothing — assuming distinct series month keys and distinct
ledger months, the final totalInvested equals the sum of recorded amounts
over exactly those ledger months whose key appears among the series month
keys. -/
theorem c10_unmatched_ledger_months_ignored (md : List MonthlyInvestment)
    (prices : List LPoint) (s : LedgerSnapshot)
    (hpk : (prices.map (fun p => p.date.take 7)).Nodup)
    (hmk : (md.map (fun m => m.month)).Nodup)
    (hlast : (ledgerSimulation md prices).getLast? = some s) :
    s.totalInvested = ((md.filter (fun m =>
      (prices.map (fun p => p.date.take 7)).contains m.month)).map
        (fun m => m.totalAmount)).sum := by
  cases prices with
  | nil => simp [ledgerSimulation, ledgerLoop] at hlast
  | cons p rest =>
    have h := ledgerLoop_last_invested md rest p 0 0
    unfold ledgerSimulation at hlast
    rw [hlast, Option.map_some'] at h
    injection h with h
    rw [h, zero_add]
    rw [show (p :: rest).map (fun x => investmentsByMonth md (x.date.take 7)) =
        ((p :: rest).map (fun x => x.date.take 7)).map
          (fun k => investmentsByMonth md k) from by rw [List.map_map]; rfl]
    exact sum_lookup_eq_filtered _ md hpk hmk

/-- Witness for C10: the 2025-12 ledger entry matching no series month is
never invested, so the final totalInvested is the 1000 of 2021-01 alone. -/
theorem c10_unmatched_ledger_months_ignored_witness :
    c10Last.totalInvested = 1000 := by
  have hk1 : ("2021-01-29" : String).take 7 = "2021-01" := by decide
  have hk2 : ("2021-02-26" : String).take 7 = "2021-02" := by decide
  have hk3 : ("2021-03-31" : String).take 7 = "2021-03" := by decide
  have ha1 : investmentsByMonth c10Ledger "2021-01" = 1000 := by rfl
  have ha2 : investmentsByMonth c10Ledger "2021-02" = 0 := by rfl
  have ha3 : investmentsByMonth c10Ledger "2021-03" = 0 := by rfl
  have hlast : (ledgerSimulation c10Ledger c9Prices).getLast? = some c10Last := by
    simp only [ledgerSimulation, c9Prices, ledgerLoop, hk1, hk2, hk3,
      ha1, ha2, ha3]
    norm_num [c10Last]
  have h := c10_unmatched_ledger_months_ignored c10Ledger c9Prices c10Last
    (by decide) (by decide) hlast
  rw [h]
  decide

end Kakeibo
